import Mathlib

/-!
Shallow embedding of the two-stage stock screening pipeline from
`src/services/stock_service_para.py` and `src/services/stock_service.py`.

Modelling conventions:
* IEEE doubles are modelled by `ℚ`; the float `nan` is the `none` case of
  `Option ℚ` (pandas propagates NaN through arithmetic, and every ordered
  comparison against NaN is `False`).
* A raw JSON field value is `Raw`: absent/`None`, a string, or a number.
* `pd.to_numeric(..., errors="coerce")` is modelled by `to_numeric` on the
  character list of the string: optional sign, an integer part, and an
  optional fractional part — the decimal shapes the provider's fields and
  the spec's examples exercise; every other string coerces to `none` (NaN).
* `str(x)` of a float followed by re-parsing round-trips in Python, so the
  numeric branch of each normalizer yields the number itself before the
  `/100` rule is applied.
* Network calls are oracle functions into `Except String ...`; an exception
  raised by the Python code is the `Except.error` case.
* Pandas DataFrames are lists of records with a fixed column set, so the
  `"col" in df.columns` guards of the source are always-true in the model
  and the `df.empty` guards become emptiness tests on the list.
-/

/-- A raw field value as it arrives from the JSON payloads: absent/`None`,
a string, or a number (floats modelled by `ℚ`). -/
inductive Raw : Type
  | rnone : Raw
  | rstr : String → Raw
  | rnum : ℚ → Raw
  deriving DecidableEq

/-- Value of a digit string, models Python's integer reading of a run of
decimal digits. -/
def digitsToNat (l : List Char) : Nat :=
  l.foldl (fun a c => a * 10 + (c.toNat - 48)) 0

/-- Models `pd.to_numeric(s, errors="coerce")` on a string: an optional
sign, then digits with an optional single decimal point ("12", "-624",
"3.5", "12.", ".5"); anything else (including a stray percent sign, as in
"%12") coerces to NaN, i.e. `none`. -/
def to_numeric (s : List Char) : Option ℚ :=
  let p : ℚ × List Char :=
    match s with
    | '-' :: r => ((-1 : ℚ), r)
    | '+' :: r => ((1 : ℚ), r)
    | r => ((1 : ℚ), r)
  let sign := p.1
  let body := p.2
  let ip := body.takeWhile Char.isDigit
  let rest := body.dropWhile Char.isDigit
  match rest with
  | [] => if ip.isEmpty then none else some (sign * (digitsToNat ip : ℚ))
  | '.' :: fp =>
      if fp.all Char.isDigit ∧ (ip ≠ [] ∨ fp ≠ []) then
        some (sign * ((digitsToNat ip : ℚ) + (digitsToNat fp : ℚ) / (10 : ℚ) ^ fp.length))
      else none
  | _ => none

/-- The shared `/100` rule of both normalizers: if the magnitude of the
parsed number exceeds 100 divide it by 100, else keep it.  `abs(val) > 100`
is written as the explicit disjunction so the condition evaluates. -/
def em_percent_rule (q : ℚ) : ℚ :=
  if 100 < q ∨ q < -100 then q / 100 else q

/-- Models `_normalize_percent_like_scalar` of `stock_service_para.py`:
`None` gives NaN; a string goes through the `"%" in s` branch, where
`s.replace("%", "")` removes every percent sign (not only a trailing one);
the parsed value then gets the `/100` rule; `str` of a number re-parses to
the number itself. -/
def normalize_percent_like_scalar : Raw → Option ℚ
  | Raw.rnone => none
  | Raw.rstr s =>
      if '%' ∈ s.data then
        (to_numeric (s.data.filter (fun c => c != '%'))).map em_percent_rule
      else
        (to_numeric s.data).map em_percent_rule
  | Raw.rnum q => some (em_percent_rule q)

/-- Models `_em_percent_rule_series` applied elementwise:
`series.astype(str).str.replace("%", "", regex=False)` removes every
percent sign unconditionally, `pd.to_numeric(errors="coerce")` parses, and
`num.where(num.abs() <= 100, num / 100.0)` applies the `/100` rule.  A
missing value renders to a string that coerces back to NaN. -/
def em_percent_rule_series_elem : Raw → Option ℚ
  | Raw.rnone => none
  | Raw.rstr s => (to_numeric (s.data.filter (fun c => c != '%'))).map em_percent_rule
  | Raw.rnum q => some (em_percent_rule q)

/-- Claim-side definition written from the spec's words (§4.2): strip a
TRAILING percent sign if present, parse the remainder as a decimal number,
apply the `/100` magnitude rule; `None` or unparsable input is NaN. -/
def normalize_spec_trailing : Raw → Option ℚ
  | Raw.rnone => none
  | Raw.rstr s =>
      (to_numeric (if s.data.getLast? = some '%' then s.data.dropLast else s.data)).map
        em_percent_rule
  | Raw.rnum q => some (em_percent_rule q)

/-- Claim-side definition for the amended normalization claim: strip EVERY
percent sign, parse the remainder, apply the `/100` magnitude rule; `None`
or unparsable input is NaN. -/
def normalize_spec_all : Raw → Option ℚ
  | Raw.rnone => none
  | Raw.rstr s => (to_numeric (s.data.filter (fun c => c != '%'))).map em_percent_rule
  | Raw.rnum q => some (em_percent_rule q)

/-- One row of `_em_list_payload_to_df`: the six requested listing fields
(code, name, last price, percent-change, volume-ratio, turnover-rate). -/
structure ListingRecord : Type where
  f12 : Option String
  f14 : Raw
  f15 : Raw
  f3 : Raw
  f10 : Raw
  f8 : Raw
  deriving DecidableEq

/-- A listing row after `_normalize_list_display`: the three percent-like
columns hold NaN-or-number values. -/
structure NListingRecord : Type where
  f12 : Option String
  f14 : Raw
  f15 : Raw
  f3 : Option ℚ
  f10 : Option ℚ
  f8 : Option ℚ
  deriving DecidableEq

/-- Elementwise action of `_normalize_list_display`: apply the series rule
to the percent-change, volume-ratio and turnover-rate columns. -/
def normalize_list_display_row (r : ListingRecord) : NListingRecord :=
  { f12 := r.f12
    f14 := r.f14
    f15 := r.f15
    f3 := em_percent_rule_series_elem r.f3
    f10 := em_percent_rule_series_elem r.f10
    f8 := em_percent_rule_series_elem r.f8 }

/-- Models `_normalize_list_display` over the whole frame. -/
def normalize_list_display (rs : List ListingRecord) : List NListingRecord :=
  rs.map normalize_list_display_row

/-- Pandas comparison `x > m` where `x` may be NaN: NaN compares `False`. -/
def nan_gt (x : Option ℚ) (m : ℚ) : Bool :=
  match x with
  | none => false
  | some q => decide (m < q)

/-- Pandas comparison `x < m` where `x` may be NaN: NaN compares `False`. -/
def nan_lt (x : Option ℚ) (m : ℚ) : Bool :=
  match x with
  | none => false
  | some q => decide (q < m)

/-- The stage-1 row predicate of `get_filtered_stock_rows_by_params`:
`(df.f3 > pct_min) & (df.f3 < pct_max) & (df.f10 > lb_min) & (df.f8 > hs_min)`. -/
def stage1_cond (pct_min pct_max lb_min hs_min : ℚ) (r : NListingRecord) : Bool :=
  nan_gt r.f3 pct_min && nan_lt r.f3 pct_max && nan_gt r.f10 lb_min && nan_gt r.f8 hs_min

/-- The stage-1 selection `df.loc[cond]` of the parameterized pipeline. -/
def stage1_select (pct_min pct_max lb_min hs_min : ℚ) (rs : List NListingRecord) :
    List NListingRecord :=
  rs.filter (stage1_cond pct_min pct_max lb_min hs_min)

/-- The fixed-threshold row predicate of `_filter_candidates` in
`stock_service.py`: volume-ratio > 5, turnover-rate > 1, percent-change in
the open interval (2, 5). -/
def filter_candidates_cond (r : NListingRecord) : Bool :=
  nan_gt r.f10 5 && nan_gt r.f8 1 && nan_gt r.f3 2 && nan_lt r.f3 5

/-- Models `_filter_candidates` (the empty-frame and missing-column guards
are vacuous in the fixed-column model). -/
def filter_candidates (rs : List NListingRecord) : List NListingRecord :=
  rs.filter filter_candidates_cond

/-- The `data` envelope of one listing page response: the `total` count (a
missing or zero value is falsy in `total or len(df)`) and the parsed rows
of `diff`. -/
structure ListPayload : Type where
  total : Option Nat
  diff : List ListingRecord
  deriving DecidableEq

/-- Models `((first.get("data") or {}).get("total")) or len(df)`: a missing
or zero `total` falls back to the first page's observed row count. -/
def effective_total (p : ListPayload) : Nat :=
  match p.total with
  | none => p.diff.length
  | some t => if t = 0 then p.diff.length else t

/-- The pagination formula `pages = (total + pz - 1) // pz`. -/
def num_pages (total pz : Nat) : Nat :=
  (total + pz - 1) / pz

/-- Models `_load_list_all_async` (identical in both source files): fetch
page 1, derive the page count, and either return page 1's rows alone or
concatenate them with the rows of pages `2..pages` in ascending page order
(`asyncio.gather` keeps argument order, `return_exceptions=False` lets a
failed page propagate and fail the whole call).  The `concurrency` argument
only sizes the connection pool and the semaphore and does not affect the
value, so it is omitted. -/
def load_list_all (fetch : Nat → Except String ListPayload) (pz : Nat) :
    Except String (List ListingRecord) :=
  match fetch 1 with
  | Except.error e => Except.error e
  | Except.ok first =>
      let pages := num_pages (effective_total first) pz
      if pages ≤ 1 then Except.ok first.diff
      else
        Except.map (fun others => first.diff ++ List.flatten others)
          ((List.range' 2 (pages - 1)).mapM (fun pn => Except.map ListPayload.diff (fetch pn)))

/-- The `data` dict of one single-stock response: the eight requested
detail fields; a field absent from the payload is `Raw.rnone`. -/
structure DetailData : Type where
  f57 : Raw
  f58 : Raw
  f43 : Raw
  f170 : Raw
  f50 : Raw
  f168 : Raw
  f191 : Raw
  f137 : Raw
  deriving DecidableEq

/-- A returned result row: the same eight `f` fields. -/
structure DRow : Type where
  f57 : Raw
  f58 : Raw
  f43 : Raw
  f170 : Raw
  f50 : Raw
  f168 : Raw
  f191 : Raw
  f137 : Raw
  deriving DecidableEq

/-- Models `_build_row_from_single_em`: copy the eight kept `f` fields of
the payload, raw and unmodified. -/
def build_row_from_single_em (d : DetailData) : DRow :=
  { f57 := d.f57
    f58 := d.f58
    f43 := d.f43
    f170 := d.f170
    f50 := d.f50
    f168 := d.f168
    f191 := d.f191
    f137 := d.f137 }

/-- Models `_code_to_secid` / `code_to_secid`: codes starting with `6` get
market code 1, all others market code 0. -/
def code_to_secid (code : String) : String :=
  let c := code.trim
  if c.startsWith "6" then "1." ++ c else "0." ++ c

/-- The bid/ask-imbalance gate inside `task` of
`get_filtered_stock_rows_by_params`: normalize `data.get("f191")`; if the
result is NaN or below `wb_min` the row becomes the empty dict (`none`),
otherwise the kept row is `_build_row_from_single_em(data)` — the raw
fields, with the normalized value used only for the test. -/
def wb_keep (wb_min : ℚ) (data : DetailData) : Option DRow :=
  match normalize_percent_like_scalar data.f191 with
  | none => none
  | some wb => if wb < wb_min then none else some (build_row_from_single_em data)

/-- Models `task` of `get_filtered_stock_rows_by_params`: any exception in
the request/parse (the oracle's `Except.error`) yields the empty dict, a
successful payload goes through the imbalance gate. -/
def detail_task_by_params (fetch : String → Except String DetailData) (wb_min : ℚ)
    (code : String) : Option DRow :=
  match fetch (code_to_secid code) with
  | Except.error _ => none
  | Except.ok data => wb_keep wb_min data

/-- Stage-2 selection over the gathered detail slots (`none` = a fetch that
failed, i.e. the empty dict): the row-building gate followed by the final
`[r for r in rows if r]` truthiness filter. -/
def stage2_select (slots : List (Option DetailData)) (wb_min : ℚ) : List DRow :=
  slots.filterMap (fun s => s.bind (wb_keep wb_min))

/-- Models `get_filtered_stock_rows_by_params`: load the listing (page size
clamped to at least 100), normalize the three percent-like columns, apply
the stage-1 bounds, extract the non-null codes, optionally truncate to
`limit`, then map the per-code detail task and drop the falsy rows.  The
`concurrency` argument does not affect the value and is omitted. -/
def get_filtered_stock_rows_by_params (list_fetch : Nat → Except String ListPayload)
    (detail_fetch : String → Except String DetailData)
    (pct_min pct_max lb_min hs_min wb_min : ℚ) (limit : Nat) (pz : Nat) :
    Except String (List DRow) :=
  match load_list_all list_fetch (max 100 pz) with
  | Except.error e => Except.error e
  | Except.ok rows =>
      let ndf := normalize_list_display rows
      if ndf.isEmpty then Except.ok []
      else
        let kept := stage1_select pct_min pct_max lb_min hs_min ndf
        if kept.isEmpty then Except.ok []
        else
          let codes := kept.filterMap NListingRecord.f12
          let codes2 := if 0 < limit then codes.take limit else codes
          if codes2.isEmpty then Except.ok []
          else Except.ok ((codes2.map (detail_task_by_params detail_fetch wb_min)).filterMap id)

/-- Models `_compute_display_row_from_em_data` of `stock_service.py`: the
row is the eight requested `f` fields copied raw from `data`.  The loop
that writes normalized `"f10"`/`"f3"` entries reads `row.get("f10")` and
`row.get("f3")`, which are absent from the eight-key row (so it normalizes
`None` to NaN), and the final `keep_keys` projection drops those two keys
again; the writes are dead and never raise, so the kept fields are exactly
the raw payload values. -/
def compute_display_row_from_em_data (d : DetailData) : DRow :=
  { f57 := d.f57
    f58 := d.f58
    f43 := d.f43
    f170 := d.f170
    f50 := d.f50
    f168 := d.f168
    f191 := d.f191
    f137 := d.f137 }

/-- Models `task` of `get_filtered_stock_rows` (the fixed-threshold
pipeline): an exception yields the empty dict; a successful payload always
yields the display row — there is no imbalance test on this path, and the
display row always has its eight keys, hence is truthy. -/
def detail_task_no_param (fetch : String → Except String DetailData) (code : String) :
    Option DRow :=
  match fetch (code_to_secid code) with
  | Except.error _ => none
  | Except.ok data => some (compute_display_row_from_em_data data)

/-- Models `get_filtered_codes_async`: load the listing, normalize, apply
the fixed-threshold candidate filter, and extract the non-null codes. -/
def get_filtered_codes (list_fetch : Nat → Except String ListPayload) (pz : Nat) :
    Except String (List String) :=
  match load_list_all list_fetch (max 100 pz) with
  | Except.error e => Except.error e
  | Except.ok rows =>
      Except.ok ((filter_candidates (normalize_list_display rows)).filterMap NListingRecord.f12)

/-- Models `get_filtered_stock_rows` (the no-parameter pipeline): candidate
codes from the fixed-threshold filter, optional truncation, then the
per-code detail task with the falsy rows dropped — no imbalance threshold
anywhere. -/
def get_filtered_stock_rows (list_fetch : Nat → Except String ListPayload)
    (detail_fetch : String → Except String DetailData) (limit : Nat) (pz : Nat) :
    Except String (List DRow) :=
  match get_filtered_codes list_fetch pz with
  | Except.error e => Except.error e
  | Except.ok codes =>
      if codes.isEmpty then Except.ok []
      else
        let codes2 := if 0 < limit then codes.take limit else codes
        Except.ok ((codes2.map (detail_task_no_param detail_fetch)).filterMap id)

/-- An index-tagged completion schedule for a batch of already-determined
task results: the tasks of `order` complete one after the other, each
writing its own result into its own slot of the accumulator, exactly as
`asyncio.gather` assigns each result to the position of its argument
regardless of completion interleaving. -/
def schedule_writes {n : Nat} {α : Type} (t : Fin n → α) :
    List (Fin n) → (Fin n → Option α) → Fin n → Option α
  | [], acc => acc
  | i :: rest, acc => schedule_writes t rest (fun j => if j = i then some (t i) else acc j)

/-- A normalized listing record passing the default stage-1 thresholds. -/
def c2rec : NListingRecord :=
  { f12 := some "600000"
    f14 := Raw.rnone
    f15 := Raw.rnone
    f3 := some 3
    f10 := some 6
    f8 := some 2 }

/-- First listing page reporting 2500 items at page size 1000. -/
def c4page1 : ListPayload := { total := some 2500, diff := [] }

/-- A listing oracle where every page succeeds with `c4page1`. -/
def c4fetch : Nat → Except String ListPayload := fun _ => Except.ok c4page1

/-- Concrete two-code batch for the detail-fetch order witness. -/
def c3codes : List String := ["600000", "000001"]

/-- A detail oracle whose every request fails. -/
def c3fetch : String → Except String DetailData := fun _ => Except.error "boom"

/-- A completion order that finishes the second task before the first. -/
def c3order : List (Fin c3codes.length) := [⟨1, by decide⟩, ⟨0, by decide⟩]

/-- First listing page reporting 2000 items, so two pages exist. -/
def c5page1 : ListPayload := { total := some 2000, diff := [] }

/-- A listing oracle whose first page succeeds and whose second page is
down. -/
def c5list_fetch : Nat → Except String ListPayload :=
  fun n => if n = 1 then Except.ok c5page1 else Except.error "page 2 down"

/-- A detail oracle that always fails (never reached in the C5 run). -/
def c5detail_fetch : String → Except String DetailData := fun _ => Except.error "unused"

/-- A detail payload whose raw imbalance field is the pre-scaled `2500`
(i.e. 25 percent after normalization). -/
def c8data : DetailData :=
  { f57 := Raw.rstr "600519"
    f58 := Raw.rnone
    f43 := Raw.rnone
    f170 := Raw.rnone
    f50 := Raw.rnone
    f168 := Raw.rnone
    f191 := Raw.rnum 2500
    f137 := Raw.rnone }

/-- A detail oracle answering every request with `c8data`. -/
def c9fetch : String → Except String DetailData := fun _ => Except.ok c8data

/-! Helper lemmas about the `/100` rule. -/

theorem em_rule_of_small {q : ℚ} (h1 : q ≤ 100) (h2 : -100 ≤ q) : em_percent_rule q = q :=
  if_neg (by rintro (h | h) <;> linarith)

theorem em_rule_of_big_pos {q : ℚ} (h : 100 < q) : em_percent_rule q = q / 100 :=
  if_pos (Or.inl h)

theorem em_rule_of_big_neg {q : ℚ} (h : q < -100) : em_percent_rule q = q / 100 :=
  if_pos (Or.inr h)

/-- C1 (counterexample): the code does not strip only a trailing percent
sign — `"%12"` has no trailing `%` and is not a decimal numeral, so the
spec's rule coerces it to NaN, yet `_normalize_percent_like_scalar` removes
the interior `%` and returns 12. -/
theorem percent_normalizer_not_trailing_only :
    normalize_percent_like_scalar (Raw.rstr "%12") = some 12 ∧
      normalize_spec_trailing (Raw.rstr "%12") = none := by
  constructor
  · have h : normalize_percent_like_scalar (Raw.rstr "%12") =
        some (em_percent_rule ((1 : ℚ) * (12 : ℚ))) := rfl
    rw [h, em_rule_of_small (by norm_num) (by norm_num)]
    norm_num
  · rfl

/-- C1 (amended): for every raw input the percent normalizer strips EVERY
percent sign (not only a trailing one) and parses the remainder as a
decimal number, dividing by 100 exactly when the magnitude exceeds 100;
`None` and unparsable input give NaN.  Both the scalar and the series
normalizer agree with this rule, and the spec's quoted examples hold:
`normalize("-624") = -6.24`, `normalize("3.5%") = 3.5`,
`normalize("12") = 12`, `normalize(None) = NaN`, `normalize("abc") = NaN`. -/
theorem percent_normalizer_amended :
    (∀ r : Raw, normalize_percent_like_scalar r = normalize_spec_all r ∧
        em_percent_rule_series_elem r = normalize_spec_all r) ∧
      normalize_percent_like_scalar (Raw.rstr "-624") = some (-6.24) ∧
      normalize_percent_like_scalar (Raw.rstr "3.5%") = some 3.5 ∧
      normalize_percent_like_scalar (Raw.rstr "12") = some 12 ∧
      normalize_percent_like_scalar Raw.rnone = none ∧
      normalize_percent_like_scalar (Raw.rstr "abc") = none := by
  refine ⟨?_, ?_, ?_, ?_, rfl, rfl⟩
  · intro r
    refine ⟨?_, ?_⟩
    · cases r with
      | rnone => rfl
      | rnum q => rfl
      | rstr s =>
          show (if '%' ∈ s.data then _ else _) = _
          by_cases h : '%' ∈ s.data
          · rw [if_pos h]; rfl
          · rw [if_neg h]
            show (to_numeric s.data).map em_percent_rule =
              (to_numeric (s.data.filter (fun c => c != '%'))).map em_percent_rule
            rw [List.filter_eq_self.mpr]
            intro a ha
            simp only [bne_iff_ne, ne_eq]
            intro hc
            exact h (hc ▸ ha)
    · cases r with
      | rnone => rfl
      | rnum q => rfl
      | rstr s => rfl
  · have h : normalize_percent_like_scalar (Raw.rstr "-624") =
        some (em_percent_rule ((-1 : ℚ) * (624 : ℚ))) := rfl
    rw [h, em_rule_of_big_neg (by norm_num)]
    norm_num
  · have h : normalize_percent_like_scalar (Raw.rstr "3.5%") =
        some (em_percent_rule ((1 : ℚ) * ((3 : ℚ) + (5 : ℚ) / (10 : ℚ) ^ 1))) := rfl
    rw [h, em_rule_of_small (by norm_num) (by norm_num)]
    norm_num
  · have h : normalize_percent_like_scalar (Raw.rstr "12") =
        some (em_percent_rule ((1 : ℚ) * (12 : ℚ))) := rfl
    rw [h, em_rule_of_small (by norm_num) (by norm_num)]
    norm_num

/-- C10: normalizing an already-normalized numeric value of magnitude at
most 100 returns it unchanged, for the scalar and the series normalizer
alike. -/
theorem percent_normalizer_idempotent (q : ℚ) (h : |q| ≤ 100) :
    normalize_percent_like_scalar (Raw.rnum q) = some q ∧
      em_percent_rule_series_elem (Raw.rnum q) = some q := by
  obtain ⟨h1, h2⟩ := abs_le.mp h
  have he : em_percent_rule q = q := em_rule_of_small h2 h1
  exact ⟨by rw [normalize_percent_like_scalar, he], by rw [em_percent_rule_series_elem, he]⟩

/-- Witness for C10 at the concrete value 3.5. -/
theorem percent_normalizer_idempotent_witness :
    |(3.5 : ℚ)| ≤ 100 ∧ normalize_percent_like_scalar (Raw.rnum 3.5) = some 3.5 := by
  have h : |(3.5 : ℚ)| ≤ 100 := by
    rw [abs_le]; constructor <;> norm_num
  exact ⟨h, (percent_normalizer_idempotent 3.5 h).1⟩

/-! Helper characterizations of the NaN-safe comparisons and the stage-1
predicate. -/

theorem nan_gt_iff (x : Option ℚ) (m : ℚ) :
    nan_gt x m = true ↔ ∃ q, x = some q ∧ m < q := by
  cases x <;> simp [nan_gt]

theorem nan_lt_iff (x : Option ℚ) (m : ℚ) :
    nan_lt x m = true ↔ ∃ q, x = some q ∧ q < m := by
  cases x <;> simp [nan_lt]

theorem stage1_cond_iff (pct_min pct_max lb_min hs_min : ℚ) (r : NListingRecord) :
    stage1_cond pct_min pct_max lb_min hs_min r = true ↔
      ∃ pc vr tr, r.f3 = some pc ∧ r.f10 = some vr ∧ r.f8 = some tr ∧
        pct_min < pc ∧ pc < pct_max ∧ lb_min < vr ∧ hs_min < tr := by
  unfold stage1_cond
  simp only [Bool.and_eq_true, nan_gt_iff, nan_lt_iff]
  constructor
  · rintro ⟨⟨⟨⟨pc, h3, hgt⟩, ⟨pc2, h3b, hlt⟩⟩, ⟨vr, h10, hvr⟩⟩, ⟨tr, h8, htr⟩⟩
    have hpc : pc2 = pc := by rw [h3] at h3b; exact (Option.some.injEq _ _ ▸ h3b).symm
    exact ⟨pc, vr, tr, h3, h10, h8, hgt, hpc ▸ hlt, hvr, htr⟩
  · rintro ⟨pc, vr, tr, h3, h10, h8, hgt, hlt, hvr, htr⟩
    exact ⟨⟨⟨⟨pc, h3, hgt⟩, ⟨pc, h3, hlt⟩⟩, ⟨vr, h10, hvr⟩⟩, ⟨tr, h8, htr⟩⟩

/-- C2: a normalized listing record is selected by the stage-1 filter iff
the three strict bounds hold on its three compared fields, which in
particular requires all three to be numbers; a record with NaN in any
compared field is never selected; and the fixed-threshold
`_filter_candidates` predicate of `stock_service.py` is the same predicate
at the default thresholds (2, 5, 5, 1). -/
theorem stage1_select_spec (rs : List NListingRecord) (pct_min pct_max lb_min hs_min : ℚ)
    (r : NListingRecord) :
    (r ∈ stage1_select pct_min pct_max lb_min hs_min rs ↔
        r ∈ rs ∧ ∃ pc vr tr, r.f3 = some pc ∧ r.f10 = some vr ∧ r.f8 = some tr ∧
          pct_min < pc ∧ pc < pct_max ∧ lb_min < vr ∧ hs_min < tr) ∧
      ((r.f3 = none ∨ r.f10 = none ∨ r.f8 = none) →
        r ∉ stage1_select pct_min pct_max lb_min hs_min rs) ∧
      filter_candidates_cond r = stage1_cond 2 5 5 1 r := by
  have hmem : r ∈ stage1_select pct_min pct_max lb_min hs_min rs ↔
      r ∈ rs ∧ stage1_cond pct_min pct_max lb_min hs_min r = true := List.mem_filter
  have hiff := stage1_cond_iff pct_min pct_max lb_min hs_min r
  refine ⟨hmem.trans (and_congr_right fun _ => hiff), ?_, ?_⟩
  · intro hnan hr
    obtain ⟨-, pc, vr, tr, h3, h10, h8, -⟩ := (hmem.trans (and_congr_right fun _ => hiff)).mp hr
    rcases hnan with h | h | h
    · rw [h] at h3; cases h3
    · rw [h] at h10; cases h10
    · rw [h] at h8; cases h8
  · unfold filter_candidates_cond stage1_cond
    cases nan_gt r.f10 5 <;> cases nan_gt r.f8 1 <;> cases nan_gt r.f3 2 <;>
      cases nan_lt r.f3 5 <;> rfl

/-- Witness for C2: a concrete record inside the default bounds is
selected. -/
theorem stage1_select_spec_witness :
    c2rec ∈ stage1_select 2 5 5 1 [c2rec] :=
  (stage1_select_spec [c2rec] 2 5 5 1 c2rec).1.mpr
    ⟨by simp, 3, 6, 2, rfl, rfl, rfl, by norm_num, by norm_num, by norm_num, by norm_num⟩

/-! Helper lemmas about the listing loader. -/

theorem load_list_all_first_page (fetch : Nat → Except String ListPayload) (pz : Nat)
    (p1 : ListPayload) (h1 : fetch 1 = Except.ok p1) :
    load_list_all fetch pz =
      if num_pages (effective_total p1) pz ≤ 1 then Except.ok p1.diff
      else
        Except.map (fun others => p1.diff ++ List.flatten others)
          ((List.range' 2 (num_pages (effective_total p1) pz - 1)).mapM
            (fun pn => Except.map ListPayload.diff (fetch pn))) := by
  unfold load_list_all
  rw [h1]

theorem except_mapM_ok_of_ok {α β : Type} (f : α → Except String β) :
    ∀ (l : List α) (ys : List β), l.mapM f = Except.ok ys → ∀ x ∈ l, ∃ y, f x = Except.ok y := by
  intro l
  induction l with
  | nil => intro ys _ x hx; cases hx
  | cons a l ih =>
      intro ys h x hx
      rw [List.mapM_cons] at h
      cases hfa : f a with
      | error e => rw [hfa] at h; simp [Bind.bind, Except.bind] at h
      | ok y =>
          rw [hfa] at h
          cases hml : l.mapM f with
          | error e => rw [hml] at h; simp [Bind.bind, Except.bind] at h
          | ok ys2 =>
              cases hx with
              | head => exact ⟨y, hfa⟩
              | tail _ hx2 => exact ih ys2 hml x hx2

/-- C4: the listing fetch computes `pages = (total + pz - 1) // pz`, which
is exactly the ceiling division `total ⌈/⌉ pz` (the least page count `c`
with `total ≤ pz * c`); when `pages ≤ 1` it returns exactly page 1's
records and consults no page other than page 1 (no fan-out: any oracle
agreeing on page 1 yields the same result); otherwise it returns page 1's
records followed by the records of pages `2..pages` concatenated in
ascending page order.  In particular 2500 items at page size 1000 give 3
pages and 1000 items give 1 page. -/
theorem load_list_all_pagination (fetch : Nat → Except String ListPayload) (pz : Nat)
    (hpz : 0 < pz) (p1 : ListPayload) (h1 : fetch 1 = Except.ok p1) :
    (∀ t : Nat, num_pages t pz = t ⌈/⌉ pz) ∧
      (∀ t c : Nat, num_pages t pz ≤ c ↔ t ≤ pz * c) ∧
      (num_pages (effective_total p1) pz ≤ 1 →
        load_list_all fetch pz = Except.ok p1.diff ∧
          ∀ g : Nat → Except String ListPayload, g 1 = fetch 1 →
            load_list_all g pz = load_list_all fetch pz) ∧
      (∀ others, 1 < num_pages (effective_total p1) pz →
        (List.range' 2 (num_pages (effective_total p1) pz - 1)).mapM
            (fun pn => Except.map ListPayload.diff (fetch pn)) = Except.ok others →
        load_list_all fetch pz = Except.ok (p1.diff ++ others.flatten)) ∧
      num_pages 2500 1000 = 3 ∧ num_pages 1000 1000 = 1 := by
  refine ⟨fun t => rfl, ?_, ?_, ?_, by decide, by decide⟩
  · intro t c
    exact ceilDiv_le_iff_le_mul hpz
  · intro hle
    have hload : load_list_all fetch pz = Except.ok p1.diff := by
      rw [load_list_all_first_page fetch pz p1 h1, if_pos hle]
    refine ⟨hload, fun g hg => ?_⟩
    rw [load_list_all_first_page g pz p1 (hg.trans h1), if_pos hle, hload]
  · intro others hgt hmapm
    rw [load_list_all_first_page fetch pz p1 h1, if_neg (by omega), hmapm]
    rfl

/-- Witness for C4 at a concrete three-page listing. -/
theorem load_list_all_pagination_witness :
    0 < 1000 ∧ c4fetch 1 = Except.ok c4page1 ∧
      load_list_all c4fetch 1000 = Except.ok (c4page1.diff ++ [[], []].flatten) ∧
      num_pages 2500 1000 = 3 := by
  have h := load_list_all_pagination c4fetch 1000 (by decide) c4page1 rfl
  exact ⟨by decide, rfl, h.2.2.2.1 [[], []] (by decide) rfl, h.2.2.2.2.1⟩

/-- C6: a failure of the mandatory first listing page fails the whole
fetch, and a failure of any later page `k ≤ pages` is not tolerated either
— no successful result is possible once any listed page cannot be fetched
(`asyncio.gather(..., return_exceptions=False)` propagates it). -/
theorem listing_page_failure_propagates (fetch : Nat → Except String ListPayload) (pz : Nat) :
    (∀ e, fetch 1 = Except.error e → load_list_all fetch pz = Except.error e) ∧
      (∀ p1 k, fetch 1 = Except.ok p1 → 2 ≤ k → k ≤ num_pages (effective_total p1) pz →
        (∀ p, fetch k ≠ Except.ok p) → ∀ l, load_list_all fetch pz ≠ Except.ok l) := by
  constructor
  · intro e he
    unfold load_list_all
    rw [he]
  · intro p1 k h1 hk2 hkle hkfail l hok
    rw [load_list_all_first_page fetch pz p1 h1] at hok
    have hpages : ¬ num_pages (effective_total p1) pz ≤ 1 := by omega
    rw [if_neg hpages] at hok
    cases hml : (List.range' 2 (num_pages (effective_total p1) pz - 1)).mapM
        (fun pn => Except.map ListPayload.diff (fetch pn)) with
    | error e => rw [hml] at hok; simp [Except.map] at hok
    | ok others =>
        have hkmem : k ∈ List.range' 2 (num_pages (effective_total p1) pz - 1) := by
          rw [List.mem_range']
          exact ⟨k - 2, by omega, by omega⟩
        obtain ⟨y, hy⟩ := except_mapM_ok_of_ok _ _ others hml k hkmem
        cases hfk : fetch k with
        | error e => rw [hfk] at hy; simp [Except.map] at hy
        | ok p => exact hkfail p hfk

/-- Witness for C6: with the first page fine and page 2 down, no successful
overall result exists. -/
theorem listing_page_failure_propagates_witness :
    c5list_fetch 1 = Except.ok c5page1 ∧ load_list_all c5list_fetch 1000 ≠ Except.ok [] := by
  refine ⟨rfl, ?_⟩
  exact (listing_page_failure_propagates c5list_fetch 1000).2 c5page1 2 rfl (by decide)
    (by decide) (fun p hp => by rw [show c5list_fetch 2 = Except.error "page 2 down" from rfl] at hp; cases hp) []

/-- C5 (counterexample): the parameterized pipeline run can fail even
though the mandatory first listing page succeeded — a failing second
listing page propagates (`return_exceptions=False`), so "fails only if the
first page fails" is false. -/
theorem pipeline_fails_though_first_page_ok :
    c5list_fetch 1 = Except.ok c5page1 ∧
      get_filtered_stock_rows_by_params c5list_fetch c5detail_fetch 2 5 5 1 20 0 1000 =
        Except.error "page 2 down" :=
  ⟨rfl, rfl⟩

/-- C5 (amended): the whole pipeline run fails exactly when the listing
load fails (the mandatory first page, or any subsequent listing page);
whenever the listing load succeeds the run succeeds, because every
per-item detail failure is absorbed by the task's exception handler and
degrades to omission. -/
theorem pipeline_error_iff_listing_error (lf : Nat → Except String ListPayload)
    (detail_fetch : String → Except String DetailData)
    (pct_min pct_max lb_min hs_min wb_min : ℚ) (limit pz : Nat) :
    (∀ e, get_filtered_stock_rows_by_params lf detail_fetch pct_min pct_max lb_min hs_min
          wb_min limit pz = Except.error e ↔
        load_list_all lf (max 100 pz) = Except.error e) ∧
      (∀ rows, load_list_all lf (max 100 pz) = Except.ok rows →
        ∃ out, get_filtered_stock_rows_by_params lf detail_fetch pct_min pct_max lb_min hs_min
          wb_min limit pz = Except.ok out) := by
  cases hl : load_list_all lf (max 100 pz) with
  | error e0 =>
      constructor
      · intro e
        simp only [get_filtered_stock_rows_by_params, hl]
        constructor <;> (intro h; injection h with h2; exact h2 ▸ rfl)
      · intro rows hrows
        cases hrows
  | ok rows0 =>
      have hok : ∃ out, get_filtered_stock_rows_by_params lf detail_fetch pct_min pct_max
          lb_min hs_min wb_min limit pz = Except.ok out := by
        simp only [get_filtered_stock_rows_by_params, hl]
        repeat' split
        all_goals exact ⟨_, rfl⟩
      obtain ⟨out, ho⟩ := hok
      constructor
      · intro e
        rw [ho]
        constructor
        · intro h; cases h
        · intro h; cases h
      · intro rows _
        exact ⟨out, ho⟩

/-- Witness for the amended C5 at the concrete failing-page-2 oracle. -/
theorem pipeline_error_iff_listing_error_witness :
    (get_filtered_stock_rows_by_params c5list_fetch c5detail_fetch 2 5 5 1 20 0 1000 =
        Except.error "page 2 down" ↔
      load_list_all c5list_fetch (max 100 1000) = Except.error "page 2 down") :=
  (pipeline_error_iff_listing_error c5list_fetch c5detail_fetch 2 5 5 1 20 0 1000).1
    "page 2 down"

/-! Helper lemmas about the index-tagged completion schedule. -/

theorem schedule_writes_of_not_mem {n : Nat} {α : Type} (t : Fin n → α) :
    ∀ (order : List (Fin n)) (acc : Fin n → Option α) (i : Fin n), i ∉ order →
      schedule_writes t order acc i = acc i := by
  intro order
  induction order with
  | nil => intro acc i _; rfl
  | cons j rest ih =>
      intro acc i hi
      have hij : i ≠ j := fun h => hi (h ▸ List.mem_cons_self j rest)
      have hirest : i ∉ rest := fun h => hi (List.mem_cons_of_mem j h)
      show schedule_writes t rest _ i = acc i
      rw [ih _ i hirest]
      simp [hij]

theorem schedule_writes_of_mem {n : Nat} {α : Type} (t : Fin n → α) :
    ∀ (order : List (Fin n)) (acc : Fin n → Option α) (i : Fin n), i ∈ order →
      schedule_writes t order acc i = some (t i) := by
  intro order
  induction order with
  | nil => intro acc i hi; cases hi
  | cons j rest ih =>
      intro acc i hi
      by_cases hr : i ∈ rest
      · exact ih _ i hr
      · have hij : i = j := by
          cases hi with
          | head => rfl
          | tail _ h => exact absurd h hr
        show schedule_writes t rest _ i = some (t i)
        rw [schedule_writes_of_not_mem t rest _ i hr]
        subst hij
        simp

/-- C3: for a batch of N identifiers, once every task of any completion
order (a permutation of the batch) has run, slot `i` holds exactly the
result of identifier `i`'s own task, so the gathered sequence equals the
input list mapped through the per-identifier task — length N, position
aligned, independent of completion order; an individual fetch failure
yields an empty slot (`none`) at its own position and, by the pointwise
statement, affects no other slot. -/
theorem detail_fetch_order_and_fault (codes : List String)
    (fetch : String → Except String DetailData) (wb_min : ℚ)
    (order : List (Fin codes.length)) (hperm : order.Perm (List.finRange codes.length)) :
    (∀ i : Fin codes.length,
        schedule_writes (fun j => detail_task_by_params fetch wb_min (codes.get j)) order
            (fun _ => none) i =
          some (detail_task_by_params fetch wb_min (codes.get i))) ∧
      ((List.finRange codes.length).map
          (fun i => schedule_writes (fun j => detail_task_by_params fetch wb_min (codes.get j))
            order (fun _ => none) i) =
        codes.map (fun c => some (detail_task_by_params fetch wb_min c))) ∧
      (∀ i : Fin codes.length, ∀ e, fetch (code_to_secid (codes.get i)) = Except.error e →
        detail_task_by_params fetch wb_min (codes.get i) = none) := by
  have hall : ∀ i : Fin codes.length, i ∈ order := fun i =>
    hperm.mem_iff.2 (List.mem_finRange i)
  refine ⟨fun i => schedule_writes_of_mem _ order _ i (hall i), ?_, ?_⟩
  · have h1 : (List.finRange codes.length).map
        (fun i => schedule_writes (fun j => detail_task_by_params fetch wb_min (codes.get j))
          order (fun _ => none) i) =
        (List.finRange codes.length).map
          (fun i => some (detail_task_by_params fetch wb_min (codes.get i))) :=
      List.map_congr_left fun i _ => schedule_writes_of_mem _ order _ i (hall i)
    have h2 : (List.finRange codes.length).map
        (fun i => some (detail_task_by_params fetch wb_min (codes.get i))) =
        ((List.finRange codes.length).map codes.get).map
          (fun c => some (detail_task_by_params fetch wb_min c)) := by
      rw [List.map_map]
      rfl
    rw [h1, h2, List.finRange_map_get]
  · intro i e he
    unfold detail_task_by_params
    rw [he]

/-- Witness for C3: a two-element batch gathered under the reversed
completion order still aligns with the input order. -/
theorem detail_fetch_order_and_fault_witness :
    c3order.Perm (List.finRange c3codes.length) ∧
      ((List.finRange c3codes.length).map
          (fun i => schedule_writes (fun j => detail_task_by_params c3fetch 20 (c3codes.get j))
            c3order (fun _ => none) i) =
        c3codes.map (fun c => some (detail_task_by_params c3fetch 20 c))) := by
  have hp : c3order.Perm (List.finRange c3codes.length) := by decide
  exact ⟨hp, (detail_fetch_order_and_fault c3codes c3fetch 20 c3order hp).2.1⟩

/-! Helper characterizations of the stage-2 imbalance gate. -/

theorem wb_keep_none_of_nan {wb_min : ℚ} {d : DetailData}
    (h : normalize_percent_like_scalar d.f191 = none) : wb_keep wb_min d = none := by
  unfold wb_keep
  rw [h]

theorem wb_keep_none_of_lt {wb_min q : ℚ} {d : DetailData}
    (h : normalize_percent_like_scalar d.f191 = some q) (hlt : q < wb_min) :
    wb_keep wb_min d = none := by
  unfold wb_keep
  rw [h]
  show (if q < wb_min then none else some (build_row_from_single_em d)) = none
  rw [if_pos hlt]

theorem wb_keep_some_of_ge {wb_min q : ℚ} {d : DetailData}
    (h : normalize_percent_like_scalar d.f191 = some q) (hge : wb_min ≤ q) :
    wb_keep wb_min d = some (build_row_from_single_em d) := by
  unfold wb_keep
  rw [h]
  show (if q < wb_min then none else some (build_row_from_single_em d)) =
    some (build_row_from_single_em d)
  rw [if_neg (not_lt.mpr hge)]

theorem wb_keep_some_imp {wb_min : ℚ} {d : DetailData} {r : DRow}
    (h : wb_keep wb_min d = some r) : r = build_row_from_single_em d := by
  unfold wb_keep at h
  cases hn : normalize_percent_like_scalar d.f191 with
  | none => rw [hn] at h; cases h
  | some q =>
      rw [hn] at h
      have h3 : (if q < wb_min then none else some (build_row_from_single_em d)) =
          some r := h
      by_cases hlt : q < wb_min
      · rw [if_pos hlt] at h3; cases h3
      · rw [if_neg hlt] at h3
        injection h3 with h2
        exact h2.symm

/-- The normalized imbalance of the concrete pre-scaled payload `c8data`. -/
theorem c8data_norm : normalize_percent_like_scalar c8data.f191 = some 25 := by
  have h1 : normalize_percent_like_scalar c8data.f191 = some (em_percent_rule 2500) := rfl
  rw [h1, em_rule_of_big_pos (by norm_num)]
  norm_num

/-- C7: stage-2 selection drops absent slots unconditionally; keeps a
present record exactly when its normalized imbalance is a number not below
`wb_min` (prepending the built row); drops it when the normalization is
NaN or below `wb_min`; and the surviving rows are a subsequence (hence in
the original relative order) of the present slots' rows. -/
theorem stage2_select_spec (slots : List (Option DetailData)) (wb_min : ℚ) (d : DetailData) :
    stage2_select (none :: slots) wb_min = stage2_select slots wb_min ∧
      (∀ q, normalize_percent_like_scalar d.f191 = some q → wb_min ≤ q →
        stage2_select (some d :: slots) wb_min =
          build_row_from_single_em d :: stage2_select slots wb_min) ∧
      (∀ q, normalize_percent_like_scalar d.f191 = some q → q < wb_min →
        stage2_select (some d :: slots) wb_min = stage2_select slots wb_min) ∧
      (normalize_percent_like_scalar d.f191 = none →
        stage2_select (some d :: slots) wb_min = stage2_select slots wb_min) ∧
      List.Sublist (stage2_select slots wb_min)
        (slots.filterMap (fun s => Option.map build_row_from_single_em s)) := by
  refine ⟨?_, ?_, ?_, ?_, ?_⟩
  · simp [stage2_select]
  · intro q hq hge
    have hk : (some d).bind (wb_keep wb_min) = some (build_row_from_single_em d) :=
      wb_keep_some_of_ge hq hge
    simp only [stage2_select]
    exact List.filterMap_cons_some hk
  · intro q hq hlt
    have hk : (some d).bind (wb_keep wb_min) = none := wb_keep_none_of_lt hq hlt
    simp only [stage2_select]
    exact List.filterMap_cons_none hk
  · intro hq
    have hk : (some d).bind (wb_keep wb_min) = none := wb_keep_none_of_nan hq
    simp only [stage2_select]
    exact List.filterMap_cons_none hk
  · induction slots with
    | nil => exact List.Sublist.refl _
    | cons s rest ih =>
        cases s with
        | none =>
            have h1 : stage2_select (none :: rest) wb_min = stage2_select rest wb_min := by
              simp [stage2_select]
            have h2 : (none :: rest).filterMap (fun s => Option.map build_row_from_single_em s) =
                rest.filterMap (fun s => Option.map build_row_from_single_em s) := by
              simp
            rw [h1, h2]
            exact ih
        | some d2 =>
            have h2 : (some d2 :: rest).filterMap
                (fun s => Option.map build_row_from_single_em s) =
                build_row_from_single_em d2 ::
                  rest.filterMap (fun s => Option.map build_row_from_single_em s) := by
              simp
            rw [h2]
            cases hk : wb_keep wb_min d2 with
            | none =>
                have h1 : stage2_select (some d2 :: rest) wb_min = stage2_select rest wb_min := by
                  simp only [stage2_select]
                  exact List.filterMap_cons_none (by simpa using hk)
                rw [h1]
                exact ih.cons _
            | some r =>
                have hr : r = build_row_from_single_em d2 := wb_keep_some_imp hk
                have h1 : stage2_select (some d2 :: rest) wb_min =
                    r :: stage2_select rest wb_min := by
                  simp only [stage2_select]
                  exact List.filterMap_cons_some (by simpa using hk)
                rw [h1, hr]
                exact ih.cons₂ _

/-- Witness for C7: a present record with normalized imbalance 25 against
threshold 20 is kept in front of the rest. -/
theorem stage2_select_spec_witness :
    normalize_percent_like_scalar c8data.f191 = some 25 ∧ (20 : ℚ) ≤ 25 ∧
      stage2_select [some c8data] 20 =
        build_row_from_single_em c8data :: stage2_select [] 20 :=
  ⟨c8data_norm, by norm_num,
    (stage2_select_spec [] 20 c8data).2.1 25 c8data_norm (by norm_num)⟩

/-- C8 (counterexample): a record surviving stage 2 with raw imbalance
`2500` (normalized to 25, which passes `wb_min = 20`) is stored with its
RAW imbalance field `2500`, not the normalized 25 — the normalization is
not written back into the record. -/
theorem surviving_row_keeps_raw_imbalance :
    normalize_percent_like_scalar c8data.f191 = some 25 ∧
      stage2_select [some c8data] 20 = [build_row_from_single_em c8data] ∧
      (build_row_from_single_em c8data).f191 = Raw.rnum 2500 ∧
      Raw.rnum 2500 ≠ Raw.rnum 25 := by
  refine ⟨c8data_norm, ?_, rfl, ?_⟩
  · have hk : wb_keep 20 c8data = some (build_row_from_single_em c8data) :=
      wb_keep_some_of_ge c8data_norm (by norm_num)
    simp [stage2_select, hk]
  · intro h
    injection h with h2
    norm_num at h2

/-- C8 (amended): every record that survives the stage-2 gate equals the
fetched payload restricted to the eight kept fields with EVERY field
unchanged — including the bid/ask-imbalance field, which stays raw; the
normalized imbalance is used only for the threshold decision. -/
theorem stage2_row_unchanged (wb_min : ℚ) (d : DetailData) (r : DRow)
    (h : wb_keep wb_min d = some r) :
    r = build_row_from_single_em d ∧ r.f57 = d.f57 ∧ r.f58 = d.f58 ∧ r.f43 = d.f43 ∧
      r.f170 = d.f170 ∧ r.f50 = d.f50 ∧ r.f168 = d.f168 ∧ r.f191 = d.f191 ∧
      r.f137 = d.f137 := by
  have hr := wb_keep_some_imp h
  subst hr
  exact ⟨rfl, rfl, rfl, rfl, rfl, rfl, rfl, rfl, rfl⟩

/-- Witness for the amended C8 at the concrete surviving payload. -/
theorem stage2_row_unchanged_witness :
    wb_keep 20 c8data = some (build_row_from_single_em c8data) ∧
      (build_row_from_single_em c8data).f191 = c8data.f191 := by
  have hk : wb_keep 20 c8data = some (build_row_from_single_em c8data) :=
    wb_keep_some_of_ge c8data_norm (by norm_num)
  exact ⟨hk,
    (stage2_row_unchanged 20 c8data (build_row_from_single_em c8data) hk).2.2.2.2.2.2.2.1⟩

/-- C9: in the fixed-threshold pipeline `get_filtered_stock_rows`, the
per-item task applies no imbalance threshold: it is exactly "fetch
succeeded ↦ display row, fetch failed ↦ omitted", so every candidate whose
detail request succeeds contributes its (always non-empty) display row to
the result, and inclusion is independent of the imbalance value; the whole
pipeline composes these tasks over the fixed-threshold candidates. -/
theorem no_param_pipeline_includes_all_ok (detail_fetch : String → Except String DetailData)
    (codes : List String) :
    (∀ c d, c ∈ codes → detail_fetch (code_to_secid c) = Except.ok d →
        compute_display_row_from_em_data d ∈
          (codes.map (detail_task_no_param detail_fetch)).filterMap id) ∧
      (∀ c, detail_task_no_param detail_fetch c =
        (detail_fetch (code_to_secid c)).toOption.map compute_display_row_from_em_data) ∧
      (∀ lf limit pz l, load_list_all lf (max 100 pz) = Except.ok l →
        get_filtered_stock_rows lf detail_fetch limit pz =
          Except.ok
            (if ((filter_candidates (normalize_list_display l)).filterMap
                NListingRecord.f12).isEmpty then []
             else
               (((if 0 < limit then
                    ((filter_candidates (normalize_list_display l)).filterMap
                      NListingRecord.f12).take limit
                  else
                    (filter_candidates (normalize_list_display l)).filterMap
                      NListingRecord.f12)).map
                  (detail_task_no_param detail_fetch)).filterMap id)) := by
  refine ⟨?_, ?_, ?_⟩
  · intro c d hc hd
    have ht : detail_task_no_param detail_fetch c =
        some (compute_display_row_from_em_data d) := by
      unfold detail_task_no_param
      rw [hd]
    rw [List.mem_filterMap]
    refine ⟨some (compute_display_row_from_em_data d), ?_, rfl⟩
    have := List.mem_map_of_mem (detail_task_no_param detail_fetch) hc
    rw [ht] at this
    exact this
  · intro c
    cases hfc : detail_fetch (code_to_secid c) with
    | error e => simp [detail_task_no_param, Except.toOption, hfc]
    | ok d => simp [detail_task_no_param, Except.toOption, hfc]
  · intro lf limit pz l hl
    simp only [get_filtered_stock_rows, get_filtered_codes, hl]
    by_cases hc : ((filter_candidates (normalize_list_display l)).filterMap
        NListingRecord.f12).isEmpty
    · rw [if_pos hc, if_pos hc]
    · rw [if_neg hc, if_neg hc]

/-- Witness for C9: a successful fetch with imbalance `2500` (which would
fail a 20-percent threshold after normalization on the parameterized path
if it were applied raw — irrelevant here) is included. -/
theorem no_param_pipeline_includes_all_ok_witness :
    c9fetch (code_to_secid "000001") = Except.ok c8data ∧
      compute_display_row_from_em_data c8data ∈
        ((["000001"].map (detail_task_no_param c9fetch)).filterMap id) :=
  ⟨rfl, (no_param_pipeline_includes_all_ok c9fetch ["000001"]).1 "000001" c8data
    (by simp) rfl⟩
